import Mathlib

/-!
Verification development for the orange-zester CLI (`src/main.rs`) and the
fetch/retry/download core it drives.  The CLI source is embedded directly;
the library core (Paginator / Hydrator / Downloader of the `orange_zest`
crate, which the specification describes in sections 4.1–4.3 but whose code
is not part of this source tree) is modelled from the specification, with
each such definition marked in its doc comment.
-/

set_option autoImplicit false

namespace OrangeZester

/-- A track record: id, title (§3 of the spec; `track_info.id` /
`track_info.title` in `main.rs`, where both are `Option`s that the CLI
unwraps).  Media bytes are modelled as `List Nat`. -/
structure Track where
  id : Nat
  title : String
  deriving DecidableEq, Repr

/-- A playlist summary / full playlist record as the CLI sees it
(`playlist_info.id` / `playlist_info.title`). -/
structure Playlist where
  id : Nat
  title : String
  deriving DecidableEq, Repr

/-- `JsonType` from `main.rs` lines 91–98: the data kinds of the `Json`
subcommand, in declaration order. -/
inductive JsonType
  | likes
  | me
  | playlists
  deriving DecidableEq, Repr

/-- `JsonType::into_enum_iter()` (derived `IntoEnumIterator`): every variant
in declaration order. -/
def JsonType.into_enum_iter : List JsonType :=
  [JsonType.likes, JsonType.me, JsonType.playlists]

/-- `AudioType` from `main.rs` lines 100–106: the audio kinds of the `Audio`
subcommand, in declaration order. -/
inductive AudioType
  | likes
  | playlists
  deriving DecidableEq, Repr

/-- `AudioType::into_enum_iter()`: every variant in declaration order. -/
def AudioType.into_enum_iter : List AudioType :=
  [AudioType.likes, AudioType.playlists]

/-- The `Opts` enum of `main.rs` lines 20–77.  The `Json` variant carries no
`recent` field; only the `Audio` variant has `recent : Option<u64>`
(modelled as `Option Nat`, values kept below `2^64`).  `PathBuf` fields are
modelled as `String`. -/
inductive Opts
  | json (oauth_token : Option String) (client_id : Option String)
      (all : Bool) (pretty_print : Bool) (output_folder : String)
      (json_types : List JsonType)
  | audio (oauth_token : Option String) (client_id : Option String)
      (recent : Option Nat) (all : Bool) (output_folder : String)
      (input_folder : String) (audio_types : List AudioType)
  deriving DecidableEq, Repr

/-- The `recent` limit an `Opts` value carries: the `Audio` variant's
`recent` field; the `Json` variant has no such field, so the extraction
yields `none` for it. -/
def optsRecent : Opts → Option Nat
  | Opts.json _ _ _ _ _ _ => none
  | Opts.audio _ _ recent _ _ _ _ => recent

/-- `main.rs` lines 243–245: if the `all` flag was set, the requested
`json_types` are replaced by every variant of `JsonType`. -/
def effectiveJsonTypes (all : Bool) (json_types : List JsonType) : List JsonType :=
  if all then JsonType.into_enum_iter else json_types

/-- `main.rs` lines 345–347: if the `all` flag was set, the requested
`audio_types` are replaced by every variant of `AudioType`. -/
def effectiveAudioTypes (all : Bool) (audio_types : List AudioType) : List AudioType :=
  if all then AudioType.into_enum_iter else audio_types

/-- `main.rs` line 351: `let recent = recent.unwrap_or(std::u64::MAX);`.
`u64::MAX` is `2^64 - 1`. -/
def recentValue (recent : Option Nat) : Nat :=
  recent.getD (2 ^ 64 - 1)

/-- The `recent as usize` cast on `main.rs` line 428, on the usual 64-bit
target: reduction modulo `2^64` (the identity on every `u64` value). -/
def usizeOfU64 (n : Nat) : Nat :=
  n % 2 ^ 64

/-- `main.rs` line 428: the sequence handed to the playlists downloader is
`playlists.playlists.iter().take(recent as usize)`. -/
def playlistsAudioArg (playlists : List Playlist) (recent : Nat) : List Playlist :=
  playlists.take recent

/-- `std::io::ErrorKind`, restricted to the structure the CLI inspects:
`NotFound` against everything else. -/
inductive IoErrorKind
  | notFound
  | permissionDenied
  | other (description : String)
  deriving DecidableEq, Repr

/-- A `std::io::Error`: a kind plus a message. -/
structure IoError where
  kind : IoErrorKind
  msg : String
  deriving DecidableEq, Repr

/-- Modelled from the spec: the library's fatal-error type
(`orange_zest::Error`).  Section 7 of the spec gives the taxonomy; the CLI
pattern-matches only its `IoError` variant (`main.rs` lines 170–178), so the
remaining fatal kinds are collapsed into representative variants. -/
inductive ZestError
  | ioError (e : IoError)
  | httpError (msg : String)
  | jsonDecodeError (msg : String)
  deriving DecidableEq, Repr

/-- The CLI's own `Error` enum, `main.rs` lines 108–115, together with its
`From` conversions (lines 117–133): `e.into()` on an `io::Error` builds
`Error::IoError` and on an `orange_zest::Error` builds
`Error::OrangeZestError`. -/
inductive Error
  | orangeZestError (e : ZestError)
  | varError (msg : String)
  | ioError (e : IoError)
  | jsonFileNotFound (path : String)
  deriving DecidableEq, Repr

/-- `specific_json_err`, `main.rs` lines 170–178: an
`orange_zest::Error::IoError` whose kind is `NotFound` becomes
`Error::JsonFileNotFound(filepath)`; any other `IoError` is converted by
`e.into()` (so `Error::IoError(e)`); any non-`IoError` library error is
converted by `generic_err.into()` (so `Error::OrangeZestError`). -/
def specific_json_err (generic_err : ZestError) (filepath : String) : Error :=
  match generic_err with
  | ZestError.ioError e =>
    match e.kind with
    | IoErrorKind.notFound => Error.jsonFileNotFound filepath
    | _ => Error.ioError e
  | _ => Error.orangeZestError generic_err

/-- One of the two identical if-blocks of `ensure_secrets_present`
(`main.rs` lines 138–144 and 146–152): a secret already present is kept;
otherwise the environment variable is consulted, and only if it is absent
is the terminal prompted — a prompt failure propagating through `?` as
`Error::IoError`. -/
def fill_secret (env_val : Option String) (tty_res : Except IoError String)
    (cur : Option String) : Except Error (Option String) :=
  match cur with
  | some t => Except.ok (some t)
  | none =>
    match env_val with
    | some v => Except.ok (some v)
    | none =>
      match tty_res with
      | Except.ok s => Except.ok (some s)
      | Except.error e => Except.error (Error.ioError e)

/-- `ensure_secrets_present`, `main.rs` lines 137–155.  The environment is
an oracle `env : String → Option String` (`env::var` succeeding or not) and
the terminal an oracle `tty : String → Except IoError String`
(`read_password_from_tty`).  The Rust function mutates the two `Option`s in
place and returns `Ok(())`; here the final pair is returned. -/
def ensure_secrets_present (env : String → Option String)
    (tty : String → Except IoError String)
    (oauth_token client_id : Option String) :
    Except Error (Option String × Option String) :=
  match fill_secret (env "OAUTH_TOKEN") (tty "OAuth token: ") oauth_token with
  | Except.error e => Except.error e
  | Except.ok oauth' =>
    match fill_secret (env "CLIENT_ID") (tty "Client ID: ") client_id with
    | Except.error e => Except.error e
    | Except.ok client' => Except.ok (oauth', client')

/-- `TracksAudioZestingEvent` (the event vocabulary of a flat Downloader
run, §4.3 of the spec; matched by the CLI at `main.rs` lines 369–402).
`FinishTrackDownload` carries the track's byte stream. -/
inductive TracksAudioZestingEvent
  | numTracksToDownload (num : Nat)
  | startTrackDownload (track_info : Track)
  | finishTrackDownload (track_info : Track) (track_data : List Nat)
  | trackDownloadError (track_info : Track) (err : String)
  | pausedAfterServerError (time_secs : Nat)
  deriving DecidableEq, Repr

/-- `PlaylistsZestingEvent` (Paginator + Hydrator events of the playlists
metadata phase, §4.2; matched by the CLI at `main.rs` lines 296–329). -/
inductive PlaylistsZestingEvent
  | morePlaylistMetaInfoDownloaded (count : Nat)
  | finishPlaylistMetaInfoDownloading
  | startPlaylistInfoDownload (playlist_meta : Playlist)
  | finishPlaylistInfoDownload (playlist_meta : Playlist)
  | playlistInfoDownloadError (playlist_meta : Playlist) (err : String)
  | playlistInfoCompletionError (playlist_meta : Playlist) (err : String)
  | pausedAfterServerError (time_secs : Nat)
  deriving DecidableEq, Repr

/-- `LikesZestingEvent` (Paginator events of the likes metadata phase,
§4.1; matched by the CLI at `main.rs` lines 259–269). -/
inductive LikesZestingEvent
  | moreLikesInfoDownloaded (count : Nat)
  | pausedAfterServerError (time_secs : Nat)
  deriving DecidableEq, Repr

/-- Modelled from the spec: the fixed retry-delay policy value of §4.1/§4.3
("fixed policy value, not caller-configurable"). -/
def retryDelaySecs : Nat := 30

/-- Modelled from the spec: how one track's download turns out in a given
world — some number of transient-server-error pauses, then either the full
byte stream or a permanent per-item failure (§4.3 steps 2a–2c). -/
inductive TrackResult
  | downloaded (data : List Nat)
  | failed (err : String)
  deriving DecidableEq, Repr

/-- A track's world outcome: transient pauses followed by a final result. -/
structure TrackOutcome where
  pauses : Nat
  result : TrackResult
  deriving DecidableEq, Repr

/-- Modelled from the spec: the events one track contributes to a flat
Downloader run (§4.3 step 2): `StartTrackDownload`, one
`PausedAfterServerError` per transient retry, then `FinishTrackDownload`
with the bytes or `TrackDownloadError` with the reason. -/
def trackEvents (t : Track) (o : TrackOutcome) : List TracksAudioZestingEvent :=
  TracksAudioZestingEvent.startTrackDownload t ::
    (List.replicate o.pauses (TracksAudioZestingEvent.pausedAfterServerError retryDelaySecs) ++
      [match o.result with
       | TrackResult.downloaded data => TracksAudioZestingEvent.finishTrackDownload t data
       | TrackResult.failed err => TracksAudioZestingEvent.trackDownloadError t err])

/-- The full event list of a flat Downloader run over an (already
truncated) selection. -/
def loopEvents (sel : List (Track × TrackOutcome)) : List TracksAudioZestingEvent :=
  sel.flatMap (fun p => trackEvents p.1 p.2)

/-- Deliver a list of events to a synchronous observer callback, threading
the observer's own state.  The callback's result is only ever used as the
next observer state (its "return value" cannot redirect the core). -/
def feedEvents {σ : Type} {ε : Type} (cb : σ → ε → σ) (s : σ) (events : List ε) : σ :=
  events.foldl cb s

/-- Modelled from the spec: the per-track loop of a flat Downloader run
(§4.3 step 2), invoking the observer callback synchronously at every event
and returning the final observer state together with the emitted events. -/
def downloadLoop {σ : Type} (cb : σ → TracksAudioZestingEvent → σ) (s : σ) :
    List (Track × TrackOutcome) → σ × List TracksAudioZestingEvent
  | [] => (s, [])
  | (t, o) :: rest =>
    let evs := trackEvents t o
    let s' := feedEvents cb s evs
    let (s'', evs') := downloadLoop cb s' rest
    (s'', evs ++ evs')

/-- Modelled from the spec: `Zester::likes_audio` — the flat Downloader run
(§4.3).  Step 1 truncates the input to the first `limit` items and emits
`NumTracksToDownload` with the truncated count; step 2 walks the selection
in order. -/
def likes_audio {σ : Type} (cb : σ → TracksAudioZestingEvent → σ) (s : σ)
    (tracks : List (Track × TrackOutcome)) (limit : Nat) :
    σ × List TracksAudioZestingEvent :=
  let sel := tracks.take limit
  let e0 := TracksAudioZestingEvent.numTracksToDownload sel.length
  let (s', evs) := downloadLoop cb (cb s e0) sel
  (s', e0 :: evs)

/-- The pure event trace of a flat Downloader run. -/
def likes_audio_events (tracks : List (Track × TrackOutcome)) (limit : Nat) :
    List TracksAudioZestingEvent :=
  TracksAudioZestingEvent.numTracksToDownload (tracks.take limit).length ::
    loopEvents (tracks.take limit)

/-- Modelled from the spec: one server response to a page request — a page
of items with a continuation flag, or a transient server error (§4.1,
§6). -/
inductive PageResp (α : Type)
  | page (items : List α) (more : Bool)
  | transient
  deriving DecidableEq, Repr

/-- Modelled from the spec: the Paginator loop (§4.1), consuming served
responses in order.  On a page: append its items, emit
`MoreLikesInfoDownloaded`, and stop when the page signals no continuation.
On a transient error: emit `PausedAfterServerError` and retry the same
cursor (the next served response).  If the server never completes the
listing, no collection is produced (`none`).  The observer callback is
threaded synchronously through every event. -/
def paginateFrom {σ : Type} (cb : σ → LikesZestingEvent → σ) (s : σ)
    (acc : List Track) :
    List (PageResp Track) → σ × Option (List Track)
  | [] => (s, none)
  | PageResp.transient :: rest =>
    paginateFrom cb (cb s (LikesZestingEvent.pausedAfterServerError retryDelaySecs)) acc rest
  | PageResp.page items more :: rest =>
    let s' := cb s (LikesZestingEvent.moreLikesInfoDownloaded items.length)
    if more then paginateFrom cb s' (acc ++ items) rest
    else (s', some (acc ++ items))

/-- Modelled from the spec: `Zester::likes` — fetch the complete likes
collection by pagination (§4.1).  No limit parameter exists anywhere in the
metadata phase. -/
def likesZest {σ : Type} (cb : σ → LikesZestingEvent → σ) (s : σ)
    (resps : List (PageResp Track)) : σ × Option (List Track) :=
  paginateFrom cb s [] resps

/-- The pages the Paginator consumes from a served-response list: every
page up to and including the first one with no continuation. -/
def pagesConsumed {α : Type} : List (PageResp α) → List (List α)
  | [] => []
  | PageResp.transient :: rest => pagesConsumed rest
  | PageResp.page items more :: rest =>
    if more then items :: pagesConsumed rest else [items]

/-- Modelled from the spec: how one playlist summary's hydration turns out
(§4.2 steps 3–4): hydrated, fetch error, or post-fetch completion error. -/
inductive HydrateOutcome
  | ok
  | fetchError (err : String)
  | completionError (err : String)
  deriving DecidableEq, Repr

/-- Modelled from the spec: the events one summary contributes to a
Hydrator run (§4.2): `StartPlaylistInfoDownload`, then
`FinishPlaylistInfoDownload` on success or the distinguishing error event
on failure. -/
def hydrateEvents (m : Playlist) (o : HydrateOutcome) : List PlaylistsZestingEvent :=
  PlaylistsZestingEvent.startPlaylistInfoDownload m ::
    [match o with
     | HydrateOutcome.ok => PlaylistsZestingEvent.finishPlaylistInfoDownload m
     | HydrateOutcome.fetchError err => PlaylistsZestingEvent.playlistInfoDownloadError m err
     | HydrateOutcome.completionError err => PlaylistsZestingEvent.playlistInfoCompletionError m err]

/-- The full event list of a Hydrator run. -/
def hydrateLoopEvents (metas : List (Playlist × HydrateOutcome)) : List PlaylistsZestingEvent :=
  metas.flatMap (fun p => hydrateEvents p.1 p.2)

/-- Modelled from the spec: the Hydrator loop (§4.2), invoking the observer
callback synchronously and returning the final observer state, the emitted
events and the hydrated output (failed items omitted). -/
def hydrateLoop {σ : Type} (cb : σ → PlaylistsZestingEvent → σ) (s : σ) :
    List (Playlist × HydrateOutcome) → σ × List PlaylistsZestingEvent × List Playlist
  | [] => (s, [], [])
  | (m, o) :: rest =>
    let evs := hydrateEvents m o
    let s' := feedEvents cb s evs
    let (s'', evs', out) := hydrateLoop cb s' rest
    (s'', evs ++ evs',
      match o with
      | HydrateOutcome.ok => m :: out
      | _ => out)

/-- Characters the external sanitize-filename dependency removes (illegal in
Windows or Unix filenames).  The spec places filename sanitization outside
the core, as an external collaborator; this models its observable effect:
every other character — in particular letters, digits, spaces, parentheses,
the equals sign and the dot — passes through unchanged. -/
def illegalChars : List Char :=
  ['/', '\\', '?', '*', ':', '|', '\"', '<', '>']

/-- `sanitize`, `main.rs` lines 158–166: sanitize a filename by dropping
illegal characters (via the external sanitize-filename crate with
`windows: true`). -/
def sanitize (name : String) : String :=
  String.mk (name.data.filter (fun c => ¬ c ∈ illegalChars))

/-- A warning printed through `pb.println`, kept as structured data (the
rendered text is display-only).  The variants mirror the five warning sites
in `main.rs`: `stream_track_to_file`'s two arms (lines 183–195), the
`TrackDownloadError` arm (lines 390–397), and the two playlist-info error
arms (lines 310–325). -/
inductive Warning
  | failedToWrite (track_title : String) (err : String)
  | failedToCreate (path : String) (err : String)
  | failedToDownload (track_title : String) (err : String)
  | failedPlaylistInfo (playlist_title : String) (err : String)
  | failedPlaylistCompletion (playlist_title : String) (err : String)
  deriving DecidableEq, Repr

/-- The local filesystem the CLI writes track files into: an association of
path to byte content, most recent write first. -/
def Fs : Type := List (String × List Nat)

/-- Look a path up in the filesystem. -/
def fsGet : Fs → String → Option (List Nat)
  | [], _ => none
  | (q, d) :: rest, p => if q = p then some d else fsGet rest p

/-- `File::create` + write: (re)create the file at `p` holding `d`. -/
def fsSet (fs : Fs) (p : String) (d : List Nat) : Fs :=
  (p, d) :: fs

/-- Apply a list of writes in order. -/
def applyWrites (fs : Fs) (ws : List (String × List Nat)) : Fs :=
  ws.foldl (fun acc w => fsSet acc w.1 w.2) fs

/-- The outcome the world assigns to one sink: `File::create` failing with
a message, `io::copy` failing with a message after `k` bytes were copied,
or full success. -/
inductive SinkOutcome
  | createFailed (err : String)
  | copyFailed (bytesCopied : Nat) (err : String)
  | ok
  deriving DecidableEq, Repr

/-- `stream_track_to_file`, `main.rs` lines 183–195.  The Rust function
returns `()` unconditionally; here it returns the updated filesystem and
the warnings it printed, which is that unit result paired with its
side-effects.  `File::create` truncates the file on success, so a copy that
fails after `k` bytes leaves the file holding the first `k` bytes. -/
def stream_track_to_file (sink : SinkOutcome) (path : String)
    (track_title : String) (data : List Nat) (fs : Fs) : Fs × List Warning :=
  match sink with
  | SinkOutcome.createFailed err => (fs, [Warning.failedToCreate path err])
  | SinkOutcome.copyFailed k err =>
    (fsSet fs path (data.take k), [Warning.failedToWrite track_title err])
  | SinkOutcome.ok => (fsSet fs path data, [])

/-- The output-file path the likes handler builds (`main.rs` lines
380–384): the likes folder joined with the sanitized
`"<title> (id=<id>).m4a"`. -/
def trackPath (likes_folder : String) (t : Track) : String :=
  likes_folder ++ sanitize (t.title ++ " (id=" ++ toString t.id ++ ").m4a")

/-- The display and effect state the CLI event handlers mutate: the
filesystem, the printed warnings, and the progress bar's message, length
and position. -/
structure CliState where
  fs : Fs
  warnings : List Warning
  pbMsg : String
  pbLen : Nat
  pbPos : Nat

/-- The likes-audio event callback of `main.rs` lines 369–402, as a state
transformer.  `sink` is the world's per-path sink outcome oracle consulted
by `stream_track_to_file`. -/
def handleLikesAudioEvent (likes_folder : String) (sink : String → SinkOutcome)
    (st : CliState) : TracksAudioZestingEvent → CliState
  | TracksAudioZestingEvent.numTracksToDownload num =>
    { st with pbLen := num }
  | TracksAudioZestingEvent.startTrackDownload t =>
    { st with pbMsg := t.title }
  | TracksAudioZestingEvent.finishTrackDownload t data =>
    let path := trackPath likes_folder t
    let r := stream_track_to_file (sink path) path t.title data st.fs
    { st with fs := r.1, warnings := st.warnings ++ r.2, pbPos := st.pbPos + 1 }
  | TracksAudioZestingEvent.trackDownloadError t err =>
    let ws := st.warnings ++ [Warning.failedToDownload t.title err]
    { st with warnings := ws, pbPos := st.pbPos + 1 }
  | TracksAudioZestingEvent.pausedAfterServerError secs =>
    { st with pbMsg := "Server error, retrying after " ++ toString secs ++ "s" }

/-- The playlists event callback of the Json phase, `main.rs` lines
296–329, restricted to the fields our state tracks (the remaining arms only
restyle the bar). -/
def handlePlaylistsEvent (st : CliState) : PlaylistsZestingEvent → CliState
  | PlaylistsZestingEvent.morePlaylistMetaInfoDownloaded count =>
    { st with pbPos := st.pbPos + count }
  | PlaylistsZestingEvent.finishPlaylistMetaInfoDownloading =>
    { st with pbMsg := "", pbPos := 0 }
  | PlaylistsZestingEvent.startPlaylistInfoDownload m =>
    { st with pbMsg := m.title }
  | PlaylistsZestingEvent.finishPlaylistInfoDownload _ =>
    { st with pbPos := st.pbPos + 1 }
  | PlaylistsZestingEvent.playlistInfoDownloadError m err =>
    let ws := st.warnings ++ [Warning.failedPlaylistInfo m.title err]
    { st with warnings := ws, pbPos := st.pbPos + 1 }
  | PlaylistsZestingEvent.playlistInfoCompletionError m err =>
    let ws := st.warnings ++ [Warning.failedPlaylistCompletion m.title err]
    { st with warnings := ws, pbPos := st.pbPos + 1 }
  | PlaylistsZestingEvent.pausedAfterServerError secs =>
    { st with pbMsg := "Server error, retrying after " ++ toString secs ++ "s" }

/-- The `AudioType::Likes` arm of `main` (`main.rs` lines 356–408): load
the likes JSON (a fatal `NotFound` becoming `Error::JsonFileNotFound` via
`specific_json_err`), create the likes folder, then run the Downloader with
the CLI callback.  `loadRes` is the world's `load_json` outcome, `tracks`
the archive content paired with each track's world outcome, `dirErr` a
fatal `create_dir` failure, and `fatal` a fatal library error aborting the
batch (the Downloader's result is `Ok` iff no fatal error occurred, §4.3;
per-item failures never appear here). -/
def mainAudioLikes (loadRes : Except ZestError Unit)
    (tracks : List (Track × TrackOutcome)) (dirErr : Option IoError)
    (fatal : Option ZestError) (input_file likes_folder : String)
    (sink : String → SinkOutcome) (recent : Nat) (st : CliState) :
    Except Error CliState :=
  match loadRes with
  | Except.error e => Except.error (specific_json_err e input_file)
  | Except.ok _ =>
    match dirErr with
    | some e => Except.error (Error.ioError e)
    | none =>
      match fatal with
      | some e => Except.error (Error.orangeZestError e)
      | none =>
        Except.ok (likes_audio (handleLikesAudioEvent likes_folder sink) st tracks recent).1

/-- The `JsonType::Playlists` arm of `main` (`main.rs` lines 286–337): run
the Hydrator with the CLI callback; only a fatal library error makes the
arm fail (the Hydrator never fails the whole batch on per-item errors,
§4.2). -/
def mainJsonPlaylists (fatal : Option ZestError)
    (metas : List (Playlist × HydrateOutcome)) (st : CliState) :
    Except Error CliState :=
  match fatal with
  | some e => Except.error (Error.orangeZestError e)
  | none => Except.ok (hydrateLoop handlePlaylistsEvent st metas).1

/-- The warning each per-item download failure contributes (exactly the
`TrackDownloadError` arm of the likes handler). -/
def downloadWarning (p : Track × TrackOutcome) : Option Warning :=
  match p.2.result with
  | TrackResult.failed err => some (Warning.failedToDownload p.1.title err)
  | _ => none

/-- The warning each per-item hydration failure contributes. -/
def hydrateWarning (p : Playlist × HydrateOutcome) : Option Warning :=
  match p.2 with
  | HydrateOutcome.fetchError err => some (Warning.failedPlaylistInfo p.1.title err)
  | HydrateOutcome.completionError err => some (Warning.failedPlaylistCompletion p.1.title err)
  | HydrateOutcome.ok => none

/-- The file write a successfully downloaded track performs when its sink
is healthy. -/
def trackWrite (likes_folder : String) (p : Track × TrackOutcome) :
    Option (String × List Nat) :=
  match p.2.result with
  | TrackResult.downloaded data => some (trackPath likes_folder p.1, data)
  | TrackResult.failed _ => none

/-- The final CLI state of the likes-audio Downloader run. -/
def runLikes (likes_folder : String) (sink : String → SinkOutcome)
    (st : CliState) (tracks : List (Track × TrackOutcome)) (recent : Nat) : CliState :=
  (likes_audio (handleLikesAudioEvent likes_folder sink) st tracks recent).1

/-- Recognize a `StartTrackDownload` event. -/
def isStart : TracksAudioZestingEvent → Bool
  | TracksAudioZestingEvent.startTrackDownload _ => true
  | _ => false

/-- Recognize an event that closes one item's handling (the two events on
which the CLI handler advances the bar). -/
def isItemDone : TracksAudioZestingEvent → Bool
  | TracksAudioZestingEvent.finishTrackDownload _ _ => true
  | TracksAudioZestingEvent.trackDownloadError _ _ => true
  | _ => false

/-- The track a `StartTrackDownload` event names, if any. -/
def startOf : TracksAudioZestingEvent → Option Track
  | TracksAudioZestingEvent.startTrackDownload t => some t
  | _ => none

/-- The tracks a `StartTrackDownload` event was emitted for, in emission
order. -/
def startedTracks (evs : List TracksAudioZestingEvent) : List Track :=
  evs.filterMap startOf

/-- The warning an event makes the likes handler print when every sink is
healthy. -/
def evWarnOk : TracksAudioZestingEvent → Option Warning
  | TracksAudioZestingEvent.trackDownloadError t err =>
    some (Warning.failedToDownload t.title err)
  | _ => none

/-- The file write an event makes the likes handler perform when every sink
is healthy. -/
def evWrite (likes_folder : String) : TracksAudioZestingEvent → Option (String × List Nat)
  | TracksAudioZestingEvent.finishTrackDownload t data =>
    some (trackPath likes_folder t, data)
  | _ => none

/-- The warning an event makes the playlists handler print. -/
def evWarnHyd : PlaylistsZestingEvent → Option Warning
  | PlaylistsZestingEvent.playlistInfoDownloadError m err =>
    some (Warning.failedPlaylistInfo m.title err)
  | PlaylistsZestingEvent.playlistInfoCompletionError m err =>
    some (Warning.failedPlaylistCompletion m.title err)
  | _ => none

/-- The hydrated output of a Hydrator run: the summaries whose hydration
succeeded, in order. -/
def hydratedOut (metas : List (Playlist × HydrateOutcome)) : List Playlist :=
  metas.filterMap (fun p =>
    match p.2 with
    | HydrateOutcome.ok => some p.1
    | _ => none)

/-- The Paginator's result as a pure function of the served responses. -/
def paginatePure (acc : List Track) : List (PageResp Track) → Option (List Track)
  | [] => none
  | PageResp.transient :: rest => paginatePure acc rest
  | PageResp.page items more :: rest =>
    if more then paginatePure (acc ++ items) rest else some (acc ++ items)

theorem feedEvents_nil {σ ε : Type} (cb : σ → ε → σ) (s : σ) :
    feedEvents cb s [] = s := rfl

theorem feedEvents_cons {σ ε : Type} (cb : σ → ε → σ) (s : σ) (e : ε) (evs : List ε) :
    feedEvents cb s (e :: evs) = feedEvents cb (cb s e) evs := rfl

theorem feedEvents_append {σ ε : Type} (cb : σ → ε → σ) (s : σ) (l₁ l₂ : List ε) :
    feedEvents cb s (l₁ ++ l₂) = feedEvents cb (feedEvents cb s l₁) l₂ :=
  List.foldl_append cb s l₁ l₂

/-- The Downloader loop equals its pure event trace, with the observer
state folded along it. -/
theorem downloadLoop_eq {σ : Type} (cb : σ → TracksAudioZestingEvent → σ) :
    ∀ (l : List (Track × TrackOutcome)) (s : σ),
      downloadLoop cb s l = (feedEvents cb s (loopEvents l), loopEvents l) := by
  intro l
  induction l with
  | nil => intro s; rfl
  | cons p rest ih =>
    intro s
    obtain ⟨t, o⟩ := p
    simp only [downloadLoop, loopEvents, List.flatMap_cons, ih, feedEvents_append]

theorem loopEvents_nil : loopEvents [] = [] := rfl

theorem loopEvents_cons (t : Track) (o : TrackOutcome) (rest : List (Track × TrackOutcome)) :
    loopEvents ((t, o) :: rest) = trackEvents t o ++ loopEvents rest := by
  simp [loopEvents]

/-- `likes_audio` equals its pure event trace, with the observer state
folded along it. -/
theorem likes_audio_eq {σ : Type} (cb : σ → TracksAudioZestingEvent → σ) (s : σ)
    (tracks : List (Track × TrackOutcome)) (limit : Nat) :
    likes_audio cb s tracks limit =
      (feedEvents cb s (likes_audio_events tracks limit), likes_audio_events tracks limit) := by
  simp only [likes_audio, likes_audio_events, downloadLoop_eq, feedEvents_cons]

/-- The Hydrator loop equals its pure event trace and pure output, with the
observer state folded along the trace. -/
theorem hydrateLoop_eq {σ : Type} (cb : σ → PlaylistsZestingEvent → σ) :
    ∀ (metas : List (Playlist × HydrateOutcome)) (s : σ),
      hydrateLoop cb s metas =
        (feedEvents cb s (hydrateLoopEvents metas), hydrateLoopEvents metas, hydratedOut metas) := by
  intro metas
  induction metas with
  | nil => intro s; rfl
  | cons p rest ih =>
    intro s
    obtain ⟨m, o⟩ := p
    cases o <;>
      simp only [hydrateLoop, hydrateLoopEvents, hydratedOut, List.flatMap_cons,
        List.filterMap_cons, ih, feedEvents_append]

/-- The Paginator's collection is its pure function of the responses,
whatever the observer callback and state. -/
theorem paginateFrom_snd {σ : Type} (cb : σ → LikesZestingEvent → σ) :
    ∀ (resps : List (PageResp Track)) (s : σ) (acc : List Track),
      (paginateFrom cb s acc resps).2 = paginatePure acc resps := by
  intro resps
  induction resps with
  | nil => intro s acc; rfl
  | cons r rest ih =>
    intro s acc
    cases r with
    | transient => simpa [paginateFrom, paginatePure] using ih _ _
    | page items more =>
      cases more <;> simp [paginateFrom, paginatePure, ih]

/-- A Paginator run that completes returns exactly the concatenation of the
pages it consumed: nothing dropped, nothing duplicated, no truncation. -/
theorem paginatePure_complete :
    ∀ (resps : List (PageResp Track)) (acc coll : List Track),
      paginatePure acc resps = some coll → coll = acc ++ (pagesConsumed resps).flatten := by
  intro resps
  induction resps with
  | nil => intro acc coll h; simp [paginatePure] at h
  | cons r rest ih =>
    intro acc coll h
    cases r with
    | transient =>
      simpa [pagesConsumed] using ih acc coll (by simpa [paginatePure] using h)
    | page items more =>
      cases more with
      | false =>
        simp only [paginatePure, Bool.false_eq_true, if_false, Option.some.injEq] at h
        simp [pagesConsumed, ← h]
      | true =>
        simp only [paginatePure, if_true] at h
        have := ih (acc ++ items) coll h
        simp [pagesConsumed, this]

theorem countP_pause_replicate (p : TracksAudioZestingEvent → Bool)
    (hp : ∀ s, p (TracksAudioZestingEvent.pausedAfterServerError s) = false) (n s : Nat) :
    (List.replicate n (TracksAudioZestingEvent.pausedAfterServerError s)).countP p = 0 := by
  induction n with
  | zero => rfl
  | succ m ih => simp [List.replicate_succ, List.countP_cons, hp, ih]

theorem filterMap_pause_replicate {β : Type} (f : TracksAudioZestingEvent → Option β)
    (hf : ∀ s, f (TracksAudioZestingEvent.pausedAfterServerError s) = none) (n s : Nat) :
    (List.replicate n (TracksAudioZestingEvent.pausedAfterServerError s)).filterMap f = [] := by
  induction n with
  | zero => rfl
  | succ m ih => simp [List.replicate_succ, List.filterMap_cons, hf, ih]

theorem countP_isStart_trackEvents (t : Track) (o : TrackOutcome) :
    (trackEvents t o).countP isStart = 1 := by
  cases h : o.result <;>
    simp [trackEvents, h, isStart, List.countP_cons, List.countP_append,
      countP_pause_replicate isStart (fun _ => rfl)]

theorem countP_isStart_loopEvents :
    ∀ l : List (Track × TrackOutcome), (loopEvents l).countP isStart = l.length := by
  intro l
  induction l with
  | nil => rfl
  | cons p rest ih =>
    obtain ⟨t, o⟩ := p
    simp [loopEvents_cons, List.countP_append, countP_isStart_trackEvents, ih]
    omega

theorem countP_isItemDone_trackEvents (t : Track) (o : TrackOutcome) :
    (trackEvents t o).countP isItemDone = 1 := by
  cases h : o.result <;>
    simp [trackEvents, h, isItemDone, List.countP_cons, List.countP_append,
      countP_pause_replicate isItemDone (fun _ => rfl)]

theorem countP_isItemDone_loopEvents :
    ∀ l : List (Track × TrackOutcome), (loopEvents l).countP isItemDone = l.length := by
  intro l
  induction l with
  | nil => rfl
  | cons p rest ih =>
    obtain ⟨t, o⟩ := p
    simp [loopEvents_cons, List.countP_append, countP_isItemDone_trackEvents, ih]
    omega

theorem startedTracks_trackEvents (t : Track) (o : TrackOutcome) :
    startedTracks (trackEvents t o) = [t] := by
  cases h : o.result <;>
    simp [trackEvents, h, startedTracks, startOf, List.filterMap_cons, List.filterMap_append,
      filterMap_pause_replicate startOf (fun _ => rfl)]

theorem startedTracks_loopEvents :
    ∀ l : List (Track × TrackOutcome), startedTracks (loopEvents l) = l.map Prod.fst := by
  intro l
  induction l with
  | nil => rfl
  | cons p rest ih =>
    obtain ⟨t, o⟩ := p
    have h1 := startedTracks_trackEvents t o
    simp only [startedTracks, loopEvents_cons, List.filterMap_append, List.map_cons] at *
    simp [h1, ih]

theorem startedTracks_likes_audio_events (tracks : List (Track × TrackOutcome)) (k : Nat) :
    startedTracks (likes_audio_events tracks k) = (tracks.take k).map Prod.fst := by
  simp only [likes_audio_events, startedTracks, List.filterMap_cons]
  exact startedTracks_loopEvents (tracks.take k)

theorem handle_pbPos (folder : String) (sink : String → SinkOutcome) (st : CliState)
    (e : TracksAudioZestingEvent) :
    (handleLikesAudioEvent folder sink st e).pbPos =
      st.pbPos + (if isItemDone e then 1 else 0) := by
  cases e <;> simp [handleLikesAudioEvent, isItemDone]

theorem feed_pbPos (folder : String) (sink : String → SinkOutcome) :
    ∀ (evs : List TracksAudioZestingEvent) (st : CliState),
      (feedEvents (handleLikesAudioEvent folder sink) st evs).pbPos =
        st.pbPos + evs.countP isItemDone := by
  intro evs
  induction evs with
  | nil => intro st; rfl
  | cons e rest ih =>
    intro st
    rw [feedEvents_cons, ih, handle_pbPos, List.countP_cons]
    cases h : isItemDone e <;> (simp [h]; try omega)

theorem handle_warnings_ok (folder : String) (st : CliState) (e : TracksAudioZestingEvent) :
    (handleLikesAudioEvent folder (fun _ => SinkOutcome.ok) st e).warnings =
      st.warnings ++ (evWarnOk e).toList := by
  cases e <;> simp [handleLikesAudioEvent, stream_track_to_file, evWarnOk]

theorem feed_warnings_ok (folder : String) :
    ∀ (evs : List TracksAudioZestingEvent) (st : CliState),
      (feedEvents (handleLikesAudioEvent folder (fun _ => SinkOutcome.ok)) st evs).warnings =
        st.warnings ++ evs.filterMap evWarnOk := by
  intro evs
  induction evs with
  | nil => intro st; simp [feedEvents_nil]
  | cons e rest ih =>
    intro st
    rw [feedEvents_cons, ih, handle_warnings_ok]
    cases h : evWarnOk e <;> simp [List.filterMap_cons, h]

theorem filterMap_evWarnOk_trackEvents (t : Track) (o : TrackOutcome) :
    (trackEvents t o).filterMap evWarnOk = (downloadWarning (t, o)).toList := by
  cases h : o.result <;>
    simp [trackEvents, h, evWarnOk, downloadWarning, List.filterMap_cons,
      List.filterMap_append, filterMap_pause_replicate evWarnOk (fun _ => rfl)]

theorem filterMap_evWarnOk_loopEvents :
    ∀ l : List (Track × TrackOutcome),
      (loopEvents l).filterMap evWarnOk = l.filterMap downloadWarning := by
  intro l
  induction l with
  | nil => rfl
  | cons p rest ih =>
    obtain ⟨t, o⟩ := p
    rw [loopEvents_cons, List.filterMap_append, filterMap_evWarnOk_trackEvents, ih]
    cases h : downloadWarning (t, o) <;> simp [List.filterMap_cons, h]

theorem filterMap_evWarnOk_events (tracks : List (Track × TrackOutcome)) (k : Nat) :
    (likes_audio_events tracks k).filterMap evWarnOk =
      (tracks.take k).filterMap downloadWarning := by
  simp only [likes_audio_events, List.filterMap_cons]
  exact filterMap_evWarnOk_loopEvents (tracks.take k)

theorem handle_fs_ok (folder : String) (st : CliState) (e : TracksAudioZestingEvent) :
    (handleLikesAudioEvent folder (fun _ => SinkOutcome.ok) st e).fs =
      applyWrites st.fs (evWrite folder e).toList := by
  cases e <;> simp [handleLikesAudioEvent, stream_track_to_file, evWrite, applyWrites, fsSet]

theorem feed_fs_ok (folder : String) :
    ∀ (evs : List TracksAudioZestingEvent) (st : CliState),
      (feedEvents (handleLikesAudioEvent folder (fun _ => SinkOutcome.ok)) st evs).fs =
        applyWrites st.fs (evs.filterMap (evWrite folder)) := by
  intro evs
  induction evs with
  | nil => intro st; rfl
  | cons e rest ih =>
    intro st
    rw [feedEvents_cons, ih, handle_fs_ok]
    cases h : evWrite folder e <;> simp [List.filterMap_cons, h, applyWrites]

theorem filterMap_evWrite_trackEvents (folder : String) (t : Track) (o : TrackOutcome) :
    (trackEvents t o).filterMap (evWrite folder) = (trackWrite folder (t, o)).toList := by
  cases h : o.result <;>
    simp [trackEvents, h, evWrite, trackWrite, List.filterMap_cons,
      List.filterMap_append, filterMap_pause_replicate (evWrite folder) (fun _ => rfl)]

theorem filterMap_evWrite_loopEvents (folder : String) :
    ∀ l : List (Track × TrackOutcome),
      (loopEvents l).filterMap (evWrite folder) = l.filterMap (trackWrite folder) := by
  intro l
  induction l with
  | nil => rfl
  | cons p rest ih =>
    obtain ⟨t, o⟩ := p
    rw [loopEvents_cons, List.filterMap_append, filterMap_evWrite_trackEvents, ih]
    cases h : trackWrite folder (t, o) <;> simp [List.filterMap_cons, h]

theorem filterMap_evWrite_events (folder : String) (tracks : List (Track × TrackOutcome)) (k : Nat) :
    (likes_audio_events tracks k).filterMap (evWrite folder) =
      (tracks.take k).filterMap (trackWrite folder) := by
  simp only [likes_audio_events, List.filterMap_cons]
  exact filterMap_evWrite_loopEvents folder (tracks.take k)

theorem fsGet_fsSet (fs : Fs) (q p : String) (d : List Nat) :
    fsGet (fsSet fs q d) p = if q = p then some d else fsGet fs p := rfl

theorem applyWrites_frame :
    ∀ (ws : List (String × List Nat)) (fs : Fs) (p : String),
      p ∉ ws.map Prod.fst → fsGet (applyWrites fs ws) p = fsGet fs p := by
  intro ws
  induction ws with
  | nil => intro fs p _; rfl
  | cons w rest ih =>
    intro fs p hp
    simp only [List.map_cons, List.mem_cons, not_or] at hp
    have : applyWrites fs (w :: rest) = applyWrites (fsSet fs w.1 w.2) rest := rfl
    rw [this, ih _ _ hp.2, fsGet_fsSet, if_neg (fun h => hp.1 h.symm)]

theorem applyWrites_hit :
    ∀ (ws : List (String × List Nat)) (fs : Fs) (p : String) (d : List Nat),
      (ws.map Prod.fst).Nodup → (p, d) ∈ ws →
        fsGet (applyWrites fs ws) p = some d := by
  intro ws
  induction ws with
  | nil => intro fs p d _ hm; cases hm
  | cons w rest ih =>
    intro fs p d hnd hm
    simp only [List.map_cons, List.nodup_cons] at hnd
    have hstep : applyWrites fs (w :: rest) = applyWrites (fsSet fs w.1 w.2) rest := rfl
    rcases List.mem_cons.mp hm with heq | hmem
    · subst heq
      rw [hstep, applyWrites_frame rest _ p hnd.1, fsGet_fsSet, if_pos rfl]
    · exact hstep ▸ ih _ _ _ hnd.2 hmem

theorem writes_paths_sublist (folder : String) :
    ∀ l : List (Track × TrackOutcome),
      ((l.filterMap (trackWrite folder)).map Prod.fst).Sublist
        (l.map (fun p => trackPath folder p.1)) := by
  intro l
  induction l with
  | nil => simp
  | cons p rest ih =>
    obtain ⟨t, o⟩ := p
    cases h : o.result with
    | downloaded data =>
      have : trackWrite folder (t, o) = some (trackPath folder t, data) := by
        simp [trackWrite, h]
      simpa [List.filterMap_cons, this] using ih.cons₂ (trackPath folder t)
    | failed err =>
      have : trackWrite folder (t, o) = none := by simp [trackWrite, h]
      simpa [List.filterMap_cons, this] using ih.cons (trackPath folder t)

theorem handle_hyd_warnings (st : CliState) (e : PlaylistsZestingEvent) :
    (handlePlaylistsEvent st e).warnings = st.warnings ++ (evWarnHyd e).toList := by
  cases e <;> simp [handlePlaylistsEvent, evWarnHyd]

theorem feed_hyd_warnings :
    ∀ (evs : List PlaylistsZestingEvent) (st : CliState),
      (feedEvents handlePlaylistsEvent st evs).warnings =
        st.warnings ++ evs.filterMap evWarnHyd := by
  intro evs
  induction evs with
  | nil => intro st; simp [feedEvents_nil]
  | cons e rest ih =>
    intro st
    rw [feedEvents_cons, ih, handle_hyd_warnings]
    cases h : evWarnHyd e <;> simp [List.filterMap_cons, h]

theorem filterMap_evWarnHyd_hydrateEvents (m : Playlist) (o : HydrateOutcome) :
    (hydrateEvents m o).filterMap evWarnHyd = (hydrateWarning (m, o)).toList := by
  cases o <;> simp [hydrateEvents, evWarnHyd, hydrateWarning, List.filterMap_cons]

theorem filterMap_evWarnHyd_loopEvents :
    ∀ metas : List (Playlist × HydrateOutcome),
      (hydrateLoopEvents metas).filterMap evWarnHyd = metas.filterMap hydrateWarning := by
  intro metas
  induction metas with
  | nil => rfl
  | cons p rest ih =>
    obtain ⟨m, o⟩ := p
    have hcons : hydrateLoopEvents ((m, o) :: rest) = hydrateEvents m o ++ hydrateLoopEvents rest := by
      simp [hydrateLoopEvents]
    rw [hcons, List.filterMap_append, filterMap_evWarnHyd_hydrateEvents, ih]
    cases h : hydrateWarning (m, o) <;> simp [List.filterMap_cons, h]

/-- C1: A flat Downloader run with limit `k` over `n` tracks truncates the
input to its first `min(k, n)` items before downloading, so exactly
`min(k, n)` `StartTrackDownload` events are emitted and exactly those first
`min(k, n)` items are attempted, whatever each attempt's outcome; in the
nested playlists shape the CLI applies the limit via `take(recent)` on the
sequence passed to the downloader, so `min(k, n)` playlists are passed. -/
theorem c1_downloader_limit :
    (∀ (tracks : List (Track × TrackOutcome)) (k : Nat),
      (likes_audio_events tracks k).countP isStart = min k tracks.length
        ∧ startedTracks (likes_audio_events tracks k) = (tracks.take k).map Prod.fst)
    ∧ ∀ (playlists : List Playlist) (k : Nat),
        (playlistsAudioArg playlists k).length = min k playlists.length := by
  constructor
  · intro tracks k
    constructor
    · have : (likes_audio_events tracks k).countP isStart =
          (loopEvents (tracks.take k)).countP isStart := by
        simp [likes_audio_events, List.countP_cons, isStart]
      rw [this, countP_isStart_loopEvents, List.length_take]
    · exact startedTracks_likes_audio_events tracks k
  · intro playlists k
    exact List.length_take k playlists

/-- C2: the "recent N" limit exists only in the `Audio` subcommand and acts
only when selecting items to download; the `Json` subcommand exposes no
limit parameter, and the metadata phase always fetches the complete
collection (every consumed page's items, nothing truncated). -/
theorem c2_limit_download_phase_only :
    (∀ (t c : Option String) (a p : Bool) (o : String) (j : List JsonType),
      optsRecent (Opts.json t c a p o j) = none)
    ∧ (∀ (t c : Option String) (r : Option Nat) (a : Bool) (o i : String)
        (as : List AudioType), optsRecent (Opts.audio t c r a o i as) = r)
    ∧ (∀ (σ : Type) (cb : σ → LikesZestingEvent → σ) (s : σ)
        (resps : List (PageResp Track)) (coll : List Track),
        (likesZest cb s resps).2 = some coll → coll = (pagesConsumed resps).flatten)
    ∧ ∀ (tracks : List (Track × TrackOutcome)) (k : Nat),
        startedTracks (likes_audio_events tracks k) = (tracks.take k).map Prod.fst := by
  refine ⟨fun _ _ _ _ _ _ => rfl, fun _ _ _ _ _ _ _ => rfl, ?_, ?_⟩
  · intro σ cb s resps coll h
    rw [likesZest, paginateFrom_snd] at h
    simpa using paginatePure_complete resps [] coll h
  · exact fun tracks k => startedTracks_likes_audio_events tracks k

/-- C2 witness: the paginator conjunct applied to the concrete served
responses of the spec's §8 scenario (pages `[a,b]`, a transient error,
page `[c]`). -/
theorem c2_limit_download_phase_only_witness :
    [⟨1, "a"⟩, ⟨2, "b"⟩, ⟨3, "c"⟩] =
      (pagesConsumed
        [PageResp.page [⟨1, "a"⟩, ⟨2, "b"⟩] true, PageResp.transient,
          PageResp.page [(⟨3, "c"⟩ : Track)] false]).flatten :=
  c2_limit_download_phase_only.2.2.1 Unit (fun u _ => u) ()
    [PageResp.page [⟨1, "a"⟩, ⟨2, "b"⟩] true, PageResp.transient,
      PageResp.page [⟨3, "c"⟩] false]
    [⟨1, "a"⟩, ⟨2, "b"⟩, ⟨3, "c"⟩] rfl

/-- C5: `specific_json_err` maps a library `IoError` of kind `NotFound` to
`Error::JsonFileNotFound` carrying the file path; an `IoError` of any other
kind converts to `Error::IoError` with the very same error value; any
non-I/O library error converts to `Error::OrangeZestError` holding the
unchanged original. -/
theorem c5_specific_json_err_by_kind :
    (∀ (m p : String),
      specific_json_err (ZestError.ioError ⟨IoErrorKind.notFound, m⟩) p =
        Error.jsonFileNotFound p)
    ∧ (∀ (e : IoError) (p : String), e.kind ≠ IoErrorKind.notFound →
        specific_json_err (ZestError.ioError e) p = Error.ioError e)
    ∧ (∀ (g : ZestError) (p : String), (∀ e, g ≠ ZestError.ioError e) →
        specific_json_err g p = Error.orangeZestError g) := by
  refine ⟨fun _ _ => rfl, ?_, ?_⟩
  · intro e p h
    obtain ⟨k, m⟩ := e
    cases k with
    | notFound => exact absurd rfl h
    | permissionDenied => rfl
    | other _ => rfl
  · intro g p h
    cases g with
    | ioError e => exact absurd rfl (h e)
    | httpError _ => rfl
    | jsonDecodeError _ => rfl

/-- C5 witness: the two hypothesized conjuncts at concrete errors — a
permission-denied I/O error passes through as `Error.ioError` unchanged, a
non-I/O library error as `Error.orangeZestError` unchanged. -/
theorem c5_specific_json_err_by_kind_witness :
    specific_json_err (ZestError.ioError ⟨IoErrorKind.permissionDenied, "m"⟩) "p" =
        Error.ioError ⟨IoErrorKind.permissionDenied, "m"⟩
    ∧ specific_json_err (ZestError.httpError "h") "p" =
        Error.orangeZestError (ZestError.httpError "h") :=
  ⟨c5_specific_json_err_by_kind.2.1 ⟨IoErrorKind.permissionDenied, "m"⟩ "p" (by decide),
    c5_specific_json_err_by_kind.2.2 (ZestError.httpError "h") "p"
      (fun e h => ZestError.noConfusion h)⟩

/-- C9: when the `all` flag is set, any explicitly listed kinds are ignored
and replaced with every variant in enumeration order: `Likes, Me,
Playlists` for the `Json` subcommand and `Likes, Playlists` for the `Audio`
subcommand (the run then processes that list front to back). -/
theorem c9_all_flag_expansion :
    (∀ given : List JsonType,
      effectiveJsonTypes true given = [JsonType.likes, JsonType.me, JsonType.playlists])
    ∧ ∀ given : List AudioType,
        effectiveAudioTypes true given = [AudioType.likes, AudioType.playlists] :=
  ⟨fun _ => rfl, fun _ => rfl⟩

/-- C10: an omitted `--recent` defaults to `u64::MAX = 2^64 - 1`; with that
default every item of the loaded archive is attempted in the flat shape,
and in the playlists shape the value cast to `usize` (unchanged on the
64-bit target) makes `take` keep the whole playlist list. -/
theorem c10_recent_default_u64_max :
    recentValue none = 2 ^ 64 - 1
    ∧ (∀ tracks : List (Track × TrackOutcome), tracks.length < 2 ^ 64 →
        startedTracks (likes_audio_events tracks (recentValue none)) = tracks.map Prod.fst)
    ∧ ∀ playlists : List Playlist, playlists.length < 2 ^ 64 →
        playlistsAudioArg playlists (usizeOfU64 (recentValue none)) = playlists := by
  refine ⟨rfl, ?_, ?_⟩
  · intro tracks h
    rw [startedTracks_likes_audio_events,
      List.take_of_length_le (by simp only [recentValue, Option.getD]; omega)]
  · intro playlists h
    have hcast : usizeOfU64 (recentValue none) = 2 ^ 64 - 1 := by
      simp only [recentValue, Option.getD, usizeOfU64]
      omega
    rw [playlistsAudioArg, hcast, List.take_of_length_le (by omega)]

/-- C10 witness: the default limit at a concrete two-track archive and a
concrete one-playlist list. -/
theorem c10_recent_default_u64_max_witness :
    startedTracks
        (likes_audio_events
          [(⟨1, "a"⟩, ⟨0, TrackResult.downloaded [7]⟩),
            (⟨2, "b"⟩, ⟨0, TrackResult.failed "gone"⟩)] (recentValue none)) =
      [⟨1, "a"⟩, ⟨2, "b"⟩]
    ∧ playlistsAudioArg [⟨9, "pl"⟩] (usizeOfU64 (recentValue none)) = [⟨9, "pl"⟩] :=
  ⟨c10_recent_default_u64_max.2.1
      [(⟨1, "a"⟩, ⟨0, TrackResult.downloaded [7]⟩),
        (⟨2, "b"⟩, ⟨0, TrackResult.failed "gone"⟩)] (by decide),
    c10_recent_default_u64_max.2.2 [⟨9, "pl"⟩] (by decide)⟩

theorem countP_isItemDone_events (tracks : List (Track × TrackOutcome)) (k : Nat) :
    (likes_audio_events tracks k).countP isItemDone = min k tracks.length := by
  have : (likes_audio_events tracks k).countP isItemDone =
      (loopEvents (tracks.take k)).countP isItemDone := by
    simp [likes_audio_events, List.countP_cons, isItemDone]
  rw [this, countP_isItemDone_loopEvents, List.length_take]

/-- C3: a track whose local sink cannot be created or fully written is
reported with a warning — and with one exactly when the sink misbehaved —
but no error escapes that item's handling: `stream_track_to_file` is a
total state transformer (the unit-returning Rust function plus its
effects), and the run still processes every selected track (the bar
advances once per selected item) whatever the per-path sink outcomes are,
so the run is never aborted by a sink failure. -/
theorem c3_sink_failure_reported_not_fatal :
    (∀ (sink : SinkOutcome) (path title : String) (data : List Nat) (fs : Fs),
      (stream_track_to_file sink path title data fs).2 = [] ↔ sink = SinkOutcome.ok)
    ∧ ∀ (folder : String) (sink : String → SinkOutcome)
        (tracks : List (Track × TrackOutcome)) (k : Nat) (st : CliState),
        (runLikes folder sink st tracks k).pbPos = st.pbPos + min k tracks.length := by
  constructor
  · intro sink path title data fs
    cases sink <;> simp [stream_track_to_file]
  · intro folder sink tracks k st
    have h1 : runLikes folder sink st tracks k =
        feedEvents (handleLikesAudioEvent folder sink) st (likes_audio_events tracks k) := by
      rw [runLikes, likes_audio_eq]
    rw [h1, feed_pbPos, countP_isItemDone_events]

/-- C6: the event callback is invoked synchronously with its return value
used only as the observer's next state, so it has no influence on control
flow: for any two observer callbacks (of any state types) the Downloader
emits the same events in the same order, the Hydrator emits the same
events and hydrates the same output, and the Paginator returns the same
collection. -/
theorem c6_callback_never_affects_control_flow :
    (∀ (σ₁ σ₂ : Type) (cb₁ : σ₁ → TracksAudioZestingEvent → σ₁)
        (cb₂ : σ₂ → TracksAudioZestingEvent → σ₂) (s₁ : σ₁) (s₂ : σ₂)
        (tracks : List (Track × TrackOutcome)) (k : Nat),
        (likes_audio cb₁ s₁ tracks k).2 = (likes_audio cb₂ s₂ tracks k).2)
    ∧ (∀ (σ₁ σ₂ : Type) (cb₁ : σ₁ → PlaylistsZestingEvent → σ₁)
        (cb₂ : σ₂ → PlaylistsZestingEvent → σ₂) (s₁ : σ₁) (s₂ : σ₂)
        (metas : List (Playlist × HydrateOutcome)),
        (hydrateLoop cb₁ s₁ metas).2 = (hydrateLoop cb₂ s₂ metas).2)
    ∧ ∀ (σ₁ σ₂ : Type) (cb₁ : σ₁ → LikesZestingEvent → σ₁)
        (cb₂ : σ₂ → LikesZestingEvent → σ₂) (s₁ : σ₁) (s₂ : σ₂)
        (acc : List Track) (resps : List (PageResp Track)),
        (paginateFrom cb₁ s₁ acc resps).2 = (paginateFrom cb₂ s₂ acc resps).2 := by
  refine ⟨?_, ?_, ?_⟩
  · intro σ₁ σ₂ cb₁ cb₂ s₁ s₂ tracks k
    rw [likes_audio_eq, likes_audio_eq]
  · intro σ₁ σ₂ cb₁ cb₂ s₁ s₂ metas
    rw [hydrateLoop_eq, hydrateLoop_eq]
  · intro σ₁ σ₂ cb₁ cb₂ s₁ s₂ acc resps
    rw [paginateFrom_snd, paginateFrom_snd]

/-- C4: a run in which only per-item errors occur still completes with
overall success, and each skipped item is reported exactly once with its
reason — the final warning list appends exactly one warning per failed
item, in order, for both the download phase (`TrackDownloadError`) and the
playlists metadata phase (`PlaylistInfoDownloadError` /
`PlaylistInfoCompletionError`); only fatal errors (a fatal library error,
or the input JSON failing to load) make the run return an `Error`. -/
theorem c4_per_item_errors_overall_success :
    (∀ (tracks : List (Track × TrackOutcome)) (input_file folder : String)
        (k : Nat) (st : CliState),
      ∃ st', mainAudioLikes (Except.ok ()) tracks none none input_file folder
          (fun _ => SinkOutcome.ok) k st = Except.ok st'
        ∧ st'.warnings = st.warnings ++ (tracks.take k).filterMap downloadWarning)
    ∧ (∀ (metas : List (Playlist × HydrateOutcome)) (st : CliState),
      ∃ st', mainJsonPlaylists none metas st = Except.ok st'
        ∧ st'.warnings = st.warnings ++ metas.filterMap hydrateWarning)
    ∧ (∀ (tracks : List (Track × TrackOutcome)) (e : ZestError)
        (input_file folder : String) (sink : String → SinkOutcome) (k : Nat) (st : CliState),
        mainAudioLikes (Except.ok ()) tracks none (some e) input_file folder sink k st =
          Except.error (Error.orangeZestError e))
    ∧ ∀ (le : ZestError) (tracks : List (Track × TrackOutcome)) (dirErr : Option IoError)
        (fatal : Option ZestError) (input_file folder : String)
        (sink : String → SinkOutcome) (k : Nat) (st : CliState),
        mainAudioLikes (Except.error le) tracks dirErr fatal input_file folder sink k st =
          Except.error (specific_json_err le input_file) := by
  refine ⟨?_, ?_, fun _ _ _ _ _ _ _ => rfl, fun _ _ _ _ _ _ _ _ _ => rfl⟩
  · intro tracks input_file folder k st
    refine ⟨(likes_audio (handleLikesAudioEvent folder (fun _ => SinkOutcome.ok)) st tracks k).1,
      rfl, ?_⟩
    rw [likes_audio_eq, feed_warnings_ok, filterMap_evWarnOk_events]
  · intro metas st
    refine ⟨(hydrateLoop handlePlaylistsEvent st metas).1, rfl, ?_⟩
    rw [hydrateLoop_eq, feed_hyd_warnings, filterMap_evWarnHyd_loopEvents]

/-- C7: each track is written to its own file at a path derived from its
title and id (sanitized), so with healthy sinks and pairwise-distinct
derived paths every successfully downloaded selected track ends the run
with exactly its bytes at its path — a permanent failure of any other
track (which writes nothing) cannot disturb it — and every path outside
the selection's paths is left exactly as it was. -/
theorem c7_per_track_files_unaffected :
    ∀ (folder : String) (tracks : List (Track × TrackOutcome)) (k : Nat) (st : CliState),
      ((tracks.take k).map (fun p => trackPath folder p.1)).Nodup →
      (∀ (t : Track) (o : TrackOutcome) (d : List Nat),
          (t, o) ∈ tracks.take k → o.result = TrackResult.downloaded d →
          fsGet (runLikes folder (fun _ => SinkOutcome.ok) st tracks k).fs
              (trackPath folder t) = some d)
      ∧ ∀ p : String, p ∉ (tracks.take k).map (fun q => trackPath folder q.1) →
          fsGet (runLikes folder (fun _ => SinkOutcome.ok) st tracks k).fs p =
            fsGet st.fs p := by
  intro folder tracks k st hnodup
  have hfs : (runLikes folder (fun _ => SinkOutcome.ok) st tracks k).fs =
      applyWrites st.fs ((tracks.take k).filterMap (trackWrite folder)) := by
    rw [runLikes, likes_audio_eq, feed_fs_ok, filterMap_evWrite_events]
  constructor
  · intro t o d hmem hres
    rw [hfs]
    refine applyWrites_hit _ _ _ _
      (hnodup.sublist (writes_paths_sublist folder (tracks.take k))) ?_
    exact List.mem_filterMap.mpr ⟨(t, o), hmem, by simp [trackWrite, hres]⟩
  · intro p hp
    rw [hfs]
    refine applyWrites_frame _ _ _ (fun hin => hp ?_)
    exact (writes_paths_sublist folder (tracks.take k)).subset hin

/-- C7 witness: the spec's §8 scenario — three tracks, the second failing
permanently — at concrete titles, ids and bytes: tracks 1 and 3 end with
exactly their bytes at their own sanitized paths. -/
theorem c7_per_track_files_unaffected_witness :
    fsGet (runLikes "likes/" (fun _ => SinkOutcome.ok) ⟨[], [], "", 0, 0⟩
        [(⟨1, "a"⟩, ⟨0, TrackResult.downloaded [1]⟩),
          (⟨2, "b"⟩, ⟨0, TrackResult.failed "no media"⟩),
          (⟨3, "c"⟩, ⟨0, TrackResult.downloaded [3, 4]⟩)] 3).fs
        (trackPath "likes/" ⟨1, "a"⟩) = some [1]
    ∧ fsGet (runLikes "likes/" (fun _ => SinkOutcome.ok) ⟨[], [], "", 0, 0⟩
        [(⟨1, "a"⟩, ⟨0, TrackResult.downloaded [1]⟩),
          (⟨2, "b"⟩, ⟨0, TrackResult.failed "no media"⟩),
          (⟨3, "c"⟩, ⟨0, TrackResult.downloaded [3, 4]⟩)] 3).fs
        (trackPath "likes/" ⟨3, "c"⟩) = some [3, 4] :=
  ⟨(c7_per_track_files_unaffected "likes/"
      [(⟨1, "a"⟩, ⟨0, TrackResult.downloaded [1]⟩),
        (⟨2, "b"⟩, ⟨0, TrackResult.failed "no media"⟩),
        (⟨3, "c"⟩, ⟨0, TrackResult.downloaded [3, 4]⟩)] 3 ⟨[], [], "", 0, 0⟩
      (by decide)).1 ⟨1, "a"⟩ ⟨0, TrackResult.downloaded [1]⟩ [1] (by decide) rfl,
    (c7_per_track_files_unaffected "likes/"
      [(⟨1, "a"⟩, ⟨0, TrackResult.downloaded [1]⟩),
        (⟨2, "b"⟩, ⟨0, TrackResult.failed "no media"⟩),
        (⟨3, "c"⟩, ⟨0, TrackResult.downloaded [3, 4]⟩)] 3 ⟨[], [], "", 0, 0⟩
      (by decide)).1 ⟨3, "c"⟩ ⟨0, TrackResult.downloaded [3, 4]⟩ [3, 4] (by decide) rfl⟩

theorem fill_secret_ok (ev : Option String) (tv : Except IoError String)
    (cur r : Option String) (h : fill_secret ev tv cur = Except.ok r) :
    r.isSome = true
    ∧ (∀ t, cur = some t → r = some t)
    ∧ (cur = none → ∀ v, ev = some v → r = some v)
    ∧ (cur = none → ev = none → ∀ s, tv = Except.ok s → r = some s) := by
  cases cur with
  | some t => simp only [fill_secret, Except.ok.injEq] at h; subst h; simp
  | none =>
    cases ev with
    | some v => simp only [fill_secret, Except.ok.injEq] at h; subst h; simp
    | none =>
      cases tv with
      | ok s =>
        simp only [fill_secret, Except.ok.injEq] at h
        subst h
        simp
      | error e =>
        simp only [fill_secret] at h
        exact Except.noConfusion h

/-- C8: whenever `ensure_secrets_present` returns `Ok`, both the OAuth
token and the client id are `Some` afterward (so the `unwrap`s when
constructing the `Zester` cannot panic); a secret already `Some` on entry
is kept unchanged; and a `None` secret is filled from the environment
variable when it is set, falling back to the interactive prompt only when
it is not — CLI flag, then environment, then prompt. -/
theorem c8_ensure_secrets_present_ok :
    ∀ (env : String → Option String) (tty : String → Except IoError String)
      (ot ci ot' ci' : Option String),
      ensure_secrets_present env tty ot ci = Except.ok (ot', ci') →
        ot'.isSome = true ∧ ci'.isSome = true
        ∧ (∀ t, ot = some t → ot' = some t)
        ∧ (∀ i, ci = some i → ci' = some i)
        ∧ (ot = none → ∀ v, env "OAUTH_TOKEN" = some v → ot' = some v)
        ∧ (ot = none → env "OAUTH_TOKEN" = none →
            ∀ s, tty "OAuth token: " = Except.ok s → ot' = some s)
        ∧ (ci = none → ∀ v, env "CLIENT_ID" = some v → ci' = some v)
        ∧ (ci = none → env "CLIENT_ID" = none →
            ∀ s, tty "Client ID: " = Except.ok s → ci' = some s) := by
  intro env tty ot ci ot' ci' h
  cases hfo : fill_secret (env "OAUTH_TOKEN") (tty "OAuth token: ") ot with
  | error e =>
    simp only [ensure_secrets_present, hfo] at h
    exact Except.noConfusion h
  | ok o'' =>
    cases hfc : fill_secret (env "CLIENT_ID") (tty "Client ID: ") ci with
    | error e =>
      simp only [ensure_secrets_present, hfo, hfc] at h
      exact Except.noConfusion h
    | ok c'' =>
      simp only [ensure_secrets_present, hfo, hfc, Except.ok.injEq, Prod.mk.injEq] at h
      obtain ⟨h1, h2⟩ := h
      subst h1; subst h2
      obtain ⟨ho1, ho2, ho3, ho4⟩ := fill_secret_ok _ _ _ _ hfo
      obtain ⟨hc1, hc2, hc3, hc4⟩ := fill_secret_ok _ _ _ _ hfc
      exact ⟨ho1, hc1, ho2, hc2, ho3, ho4, hc3, hc4⟩

/-- C8 witness: both secrets absent from the command line, present in the
environment — the run returns `Ok` and both secrets end up `Some` of the
environment's values. -/
theorem c8_ensure_secrets_present_ok_witness :
    (some "envtok" : Option String).isSome = true
    ∧ (some "envtok" : Option String).isSome = true :=
  ⟨(c8_ensure_secrets_present_ok (fun _ => some "envtok")
      (fun _ => Except.error ⟨IoErrorKind.other "no tty", "no tty"⟩)
      none none (some "envtok") (some "envtok") rfl).1,
    (c8_ensure_secrets_present_ok (fun _ => some "envtok")
      (fun _ => Except.error ⟨IoErrorKind.other "no tty", "no tty"⟩)
      none none (some "envtok") (some "envtok") rfl).2.1⟩

end OrangeZester
